import Mathlib

/-!
Shallow embedding of the ACO (Ant Colony Optimization) program in `main.go`
of joeoakes/golandSwarmIntelligenceACO, together with proofs about it.

Modelling conventions:
* Go `float64` values are modelled as exact rationals (`Rat`).  The two
  transcendental library functions the program uses, `math.Sqrt` and
  `math.Pow`, are modelled as explicit function parameters `sq : Rat → Rat`
  and `pw : Rat → Rat → Rat`; every theorem quantifies over them (or picks a
  concrete computable instance in closed evaluations).
* Go `int` is modelled as `Int`; in particular `NextCity` really returns an
  `Int` so that its `-1` sentinel is representable.
* The two `[][]float64` matrices are modelled as total functions
  `Int → Int → Rat`.  The Go slices are only ever defined on indices
  `0 .. N-1`; an out-of-range access panics in Go, while the total function
  returns a harmless junk value.  No theorem below depends on out-of-range
  entries.
* `map[int]bool` (the visited set) is modelled as `Int → Bool`; a lookup of
  a missing key yields `false` in Go, matching the total function.
* The process-wide random source is modelled by explicit streams: a
  `draws : Nat → Nat` stream for `rand.Intn` in `InitializeAnts` and an
  `rs : Nat → Rat` stream for `rand.Float64` in tour construction.
* Go methods take a pointer receiver `ac *AntColony` and could in principle
  write through it; the embedded operations therefore return the colony
  (paired with their result) so that frame properties are statable.
-/

/-- Type `City` from main.go: a point with two coordinates (`float64` fields
modelled as `Rat`). -/
structure City where
  X : Rat
  Y : Rat
deriving DecidableEq

/-- Method `(c *City) Distance(other *City)` from main.go: `math.Sqrt(dx*dx + dy*dy)`
with `dx := c.X - other.X`, `dy := c.Y - other.Y`.  `math.Sqrt` is the
abstract parameter `sq`. -/
def City.Distance (sq : Rat → Rat) (c other : City) : Rat :=
  sq ((c.X - other.X) * (c.X - other.X) + (c.Y - other.Y) * (c.Y - other.Y))

/-- Type `Ant` from main.go: `Tour []int` and `Visited map[int]bool`. -/
structure Ant where
  Tour : List Int
  Visited : Int → Bool

/-- Type `AntColony` from main.go. -/
structure AntColony where
  NumAnts : Nat
  Alpha : Rat
  Beta : Rat
  Rho : Rat
  Q : Rat
  Cities : List City
  Pheromones : Int → Int → Rat
  DistanceMatrix : Int → Int → Rat

/-- Function `NewAntColony` from main.go: stores the parameters and the city list,
allocates a zero `Pheromones` matrix, and fills
`DistanceMatrix[i][j] = cities[i].Distance(cities[j])`.  The Go code performs
no validation whatsoever of the inputs (in particular of `len(cities)`). -/
def NewAntColony (numAnts : Nat) (alpha beta rho q : Rat) (cities : List City)
    (sq : Rat → Rat) : AntColony :=
  { NumAnts := numAnts
    Alpha := alpha
    Beta := beta
    Rho := rho
    Q := q
    Cities := cities
    Pheromones := fun _ _ => 0
    DistanceMatrix := fun i j =>
      City.Distance sq (cities.getD i.toNat ⟨0, 0⟩) (cities.getD j.toNat ⟨0, 0⟩) }

/-- Method `(ac *AntColony) InitializeAnts()` from main.go.  For each of the
`NumAnts` ants it allocates `Tour: make([]int, len(ac.Cities))` — a slice of
LENGTH `len(ac.Cities)`, zero-filled — then sets `Tour[0] = startCity` and
marks `startCity` visited.  `rand.Intn(len(ac.Cities))` is modelled by the
draw stream `draws` (whose values are in range when the stream models the
real generator).  The colony is returned unchanged: the Go body never
assigns through `ac`. -/
def InitializeAnts (ac : AntColony) (draws : Nat → Nat) : AntColony × List Ant :=
  (ac, (List.range ac.NumAnts).map fun k =>
    { Tour := (List.replicate ac.Cities.length (0 : Int)).set 0 (Int.ofNat (draws k))
      Visited := fun i => i == Int.ofNat (draws k) })

/-- The desirability weight computed twice inside `NextCity` (main.go lines
89 and 96): `math.Pow(pheromones[i], ac.Alpha) * math.Pow(heuristic[i],
ac.Beta)` where `heuristic[i] = 1 / ac.DistanceMatrix[currentCity][i]`.
`math.Pow` is the abstract parameter `pw`. -/
def weight (pw : Rat → Rat → Rat) (ac : AntColony) (currentCity i : Int) : Rat :=
  pw (ac.Pheromones currentCity i) ac.Alpha * pw (1 / ac.DistanceMatrix currentCity i) ac.Beta

/-- The roulette walk of `NextCity` (main.go lines 94-103): scan the city
indices in order, skip visited ones, accumulate the weight of each unvisited
one and return the first index whose cumulative weight reaches `roulette`;
fall through to the sentinel `-1`. -/
def selectLoop (w : Nat → Rat) (vis : Nat → Bool) (roulette : Rat) :
    Rat → List Nat → Int
  | _, [] => -1
  | cum, i :: rest =>
    if vis i then selectLoop w vis roulette cum rest
    else if roulette ≤ cum + w i then Int.ofNat i
    else selectLoop w vis roulette (cum + w i) rest

/-- Method `(ac *AntColony) NextCity(ant *Ant)` from main.go: the current city is
the last tour entry, the weights of all unvisited cities are summed, a
roulette value `r * sum` is drawn (`r` models the `rand.Float64()` draw),
and the cumulative walk picks the resulting city.  The colony is returned
unchanged: the Go body never assigns through `ac`. -/
def NextCity (pw : Rat → Rat → Rat) (ac : AntColony) (ant : Ant) (r : Rat) :
    AntColony × Int :=
  let currentCity : Int := ant.Tour.getLastD 0
  let w : Nat → Rat := fun i => weight pw ac currentCity (Int.ofNat i)
  let vis : Nat → Bool := fun i => ant.Visited (Int.ofNat i)
  let sum : Rat :=
    (List.range ac.Cities.length).foldl (fun s i => if vis i then s else s + w i) 0
  (ac, selectLoop w vis (r * sum) 0 (List.range ac.Cities.length))

/-- The inner `for len(ant.Tour) < len(ac.Cities)` loop of `AntsMove`
(main.go lines 109-113): select the next city, append it to the tour, mark
it visited.  Each iteration grows the tour by exactly one entry, so the Go
loop performs at most `len(ac.Cities)` iterations; the structural `fuel`
argument is always called with that bound and hence never runs out.  The
counter `k` indexes the `rand.Float64` stream `rs`; the colony produced by
`NextCity` is threaded into the next iteration. -/
def moveLoop (pw : Rat → Rat → Rat) (rs : Nat → Rat) :
    Nat → AntColony → Ant → Nat → AntColony × Ant × Nat
  | 0, ac, ant, k => (ac, ant, k)
  | fuel + 1, ac, ant, k =>
    if ant.Tour.length < ac.Cities.length then
      let step := NextCity pw ac ant (rs k)
      moveLoop pw rs fuel step.1
        { Tour := ant.Tour ++ [step.2]
          Visited := fun i => if i == step.2 then true else ant.Visited i }
        (k + 1)
    else (ac, ant, k)

/-- The outer per-ant loop of `AntsMove` (main.go lines 108-114), threading
the colony and the random-stream counter from ant to ant. -/
def antsMoveAux (pw : Rat → Rat → Rat) (rs : Nat → Rat) :
    AntColony → List Ant → Nat → AntColony × List Ant × Nat
  | ac, [], k => (ac, [], k)
  | ac, ant :: rest, k =>
    let m := moveLoop pw rs ac.Cities.length ac ant k
    let t := antsMoveAux pw rs m.1 rest m.2.2
    (t.1, m.2.1 :: t.2.1, t.2.2)

/-- Method `(ac *AntColony) AntsMove(ants []*Ant)` from main.go: move every ant in
order until its tour contains all cities. -/
def AntsMove (pw : Rat → Rat → Rat) (rs : Nat → Rat) (ac : AntColony)
    (ants : List Ant) (k : Nat) : AntColony × List Ant :=
  ((antsMoveAux pw rs ac ants k).1, (antsMoveAux pw rs ac ants k).2.1)

/-- Body of `(ac *AntColony) TourLength(tour []int)` from main.go,
abstracted over the distance matrix: the sum of
`DistanceMatrix[tour[i]][tour[i+1]]` for `i = 0 .. len(tour)-2`; `0` for a
tour with at most one entry. -/
def tourLen (dm : Int → Int → Rat) : List Int → Rat
  | f :: t :: rest => dm f t + tourLen dm (t :: rest)
  | _ => 0

/-- Method `(ac *AntColony) TourLength(tour []int)` from main.go. -/
def AntColony.TourLength (ac : AntColony) (tour : List Int) : Rat :=
  tourLen ac.DistanceMatrix tour

/-- The evaporation phase of `UpdatePheromones` (main.go lines 119-123):
every in-range entry of the `n × n` pheromone matrix is multiplied by
`(1 - rho)`. -/
def evaporate (n : Nat) (rho : Rat) (m : Int → Int → Rat) : Int → Int → Rat :=
  fun i j =>
    if 0 ≤ i ∧ i < (n : Int) ∧ 0 ≤ j ∧ j < (n : Int) then m i j * (1 - rho) else m i j

/-- One Go statement `m[a][b] += v` on a matrix. -/
def addAt (a b : Int) (v : Rat) (m : Int → Int → Rat) : Int → Int → Rat :=
  fun i j => if i = a ∧ j = b then m i j + v else m i j

/-- The per-ant deposit loop of `UpdatePheromones` (main.go lines 126-131):
for every consecutive pair `(from, to)` of the tour, add `q / tl` first to
`[from][to]` and then to `[to][from]`.  Note that the quotient `q / tl` is
formed unconditionally inside the loop; Go evaluates `q / 0.0` to `+Inf`
when `tl = 0`, while `Rat` division by zero yields `0`, so the predicate
`UpdateZeroDiv` below records exactly when that degenerate division is
reached. -/
def depositTour (q tl : Rat) : List Int → (Int → Int → Rat) → Int → Int → Rat
  | f :: t :: rest, m => depositTour q tl (t :: rest) (addAt t f (q / tl) (addAt f t (q / tl) m))
  | _, m => m

/-- The outer deposit loop of `UpdatePheromones` (main.go lines 124-132):
for each ant, compute `tourLength := ac.TourLength(ant.Tour)` once and run
the pair loop. -/
def depositAnts (ac : AntColony) : List Ant → (Int → Int → Rat) → Int → Int → Rat
  | [], m => m
  | ant :: rest, m => depositAnts ac rest (depositTour ac.Q (ac.TourLength ant.Tour) ant.Tour m)

/-- Method `(ac *AntColony) UpdatePheromones(ants []*Ant)` from main.go:
evaporation over the whole matrix, then the symmetric deposits of every
ant.  Only the `Pheromones` field of the colony is replaced. -/
def UpdatePheromones (ac : AntColony) (ants : List Ant) : AntColony :=
  { ac with
    Pheromones := depositAnts ac ants (evaporate ac.Cities.length ac.Rho ac.Pheromones) }

/-- Repeated `UpdatePheromones` calls (the per-iteration call in `main`,
main.go line 174), with `antSeq k` the ant batch of iteration `k`. -/
def iterUpdates (ac : AntColony) (antSeq : Nat → List Ant) : Nat → AntColony
  | 0 => ac
  | k + 1 => UpdatePheromones (iterUpdates ac antSeq k) (antSeq k)

/-- True exactly when the loop at main.go lines 86-91 evaluates the
heuristic `1 / ac.DistanceMatrix[currentCity][i]` with a zero denominator,
i.e. when some unvisited city index `i < len(ac.Cities)` has distance `0`
from the ant's current city.  (Go evaluates that division to `+Inf`.) -/
def NextCityZeroDiv (ac : AntColony) (ant : Ant) : Bool :=
  let currentCity : Int := ant.Tour.getLastD 0
  (List.range ac.Cities.length).any fun i =>
    !ant.Visited (Int.ofNat i) && decide (ac.DistanceMatrix currentCity (Int.ofNat i) = 0)

/-- True exactly when the deposit loop at main.go lines 126-131 evaluates
`ac.Q / tourLength` with a zero denominator: some ant has a tour with at
least two entries (so the loop body runs) and zero tour length.  (Go
evaluates that division to `+Inf` since `Q > 0`.) -/
def UpdateZeroDiv (ac : AntColony) (ants : List Ant) : Bool :=
  ants.any fun ant =>
    decide (2 ≤ ant.Tour.length) && decide (ac.TourLength ant.Tour = 0)

/-- The five hard-coded cities of `main` (main.go lines 151-157). -/
def mainCities : List City := [⟨0, 0⟩, ⟨1, 1⟩, ⟨2, 2⟩, ⟨3, 3⟩, ⟨4, 4⟩]

/-- A symmetric matrix. -/
def SymmM (m : Int → Int → Rat) : Prop := ∀ i j, m i j = m j i

/-! ### Frame lemmas: the colony threaded through tour construction never changes -/

lemma moveLoop_colony (pw : Rat → Rat → Rat) (rs : Nat → Rat) :
    ∀ (fuel : Nat) (ac : AntColony) (ant : Ant) (k : Nat),
      (moveLoop pw rs fuel ac ant k).1 = ac := by
  intro fuel
  induction fuel with
  | zero => intro ac ant k; rfl
  | succ n ih =>
    intro ac ant k
    show (moveLoop pw rs (n + 1) ac ant k).1 = ac
    rw [moveLoop]
    by_cases h : ant.Tour.length < ac.Cities.length
    · simp only [h, if_true]
      exact ih ac _ (k + 1)
    · simp only [h, if_false]

lemma antsMoveAux_colony (pw : Rat → Rat → Rat) (rs : Nat → Rat) :
    ∀ (ants : List Ant) (ac : AntColony) (k : Nat),
      (antsMoveAux pw rs ac ants k).1 = ac := by
  intro ants
  induction ants with
  | nil => intro ac k; rfl
  | cons ant rest ih =>
    intro ac k
    show (antsMoveAux pw rs ac (ant :: rest) k).1 = ac
    rw [antsMoveAux]
    simp only [ih, moveLoop_colony]

/-- Claim C10: every colony operation other than `UpdatePheromones` leaves
the colony — in particular its pheromone matrix — unchanged, and
`UpdatePheromones` itself replaces only the `Pheromones` field: `NumAnts`,
`Alpha`, `Beta`, `Rho`, `Q`, `Cities` and `DistanceMatrix` are untouched by
all four operations. -/
theorem colony_frame :
    (∀ ac draws, (InitializeAnts ac draws).1 = ac) ∧
    (∀ pw ac ant r, (NextCity pw ac ant r).1 = ac) ∧
    (∀ pw rs ac ants k, (AntsMove pw rs ac ants k).1 = ac) ∧
    (∀ ac ants,
      (UpdatePheromones ac ants).NumAnts = ac.NumAnts ∧
      (UpdatePheromones ac ants).Alpha = ac.Alpha ∧
      (UpdatePheromones ac ants).Beta = ac.Beta ∧
      (UpdatePheromones ac ants).Rho = ac.Rho ∧
      (UpdatePheromones ac ants).Q = ac.Q ∧
      (UpdatePheromones ac ants).Cities = ac.Cities ∧
      (UpdatePheromones ac ants).DistanceMatrix = ac.DistanceMatrix) := by
  refine ⟨fun ac draws => rfl, fun pw ac ant r => rfl, ?_, ?_⟩
  · intro pw rs ac ants k
    exact antsMoveAux_colony pw rs ants ac k
  · intro ac ants
    exact ⟨rfl, rfl, rfl, rfl, rfl, rfl, rfl⟩

/-- Claim C1 (refuted, code bug): with the five hard-coded cities, one ant
and start-city draw `0`, the tour after `AntsMove` is `[0, 0, 0, 0, 0]` —
not a permutation of `0..4`.  `InitializeAnts` allocates the tour with
`make([]int, len(ac.Cities))`, i.e. already at full length `N` and
zero-padded, so the `for len(ant.Tour) < len(ac.Cities)` loop of `AntsMove`
never executes. -/
theorem antsMove_tour_not_permutation :
    ((AntsMove (fun _ _ => 0) (fun _ => 0)
        (NewAntColony 1 1 2 (1/2) 100 mainCities id)
        ((InitializeAnts (NewAntColony 1 1 2 (1/2) 100 mainCities id) (fun _ => 0)).2)
        0).2.map Ant.Tour = [[0, 0, 0, 0, 0]]) ∧
    ¬ List.Perm [(0 : Int), 0, 0, 0, 0] ((List.range 5).map Int.ofNat) := by
  exact ⟨by decide, by decide⟩

/-- Claim C2 (refuted, code bug): the ant produced by `InitializeAnts` with
the five hard-coded cities and start-city draw `3` has tour
`[3, 0, 0, 0, 0]` of length 5, not the single-element tour `[3]` the spec
describes: `make([]int, len(ac.Cities))` allocates a zero-filled slice of
length `N`, of which only slot `0` is then overwritten with the start
city. -/
theorem initializeAnts_tour_full_length :
    ((InitializeAnts (NewAntColony 1 1 2 (1/2) 100 mainCities id)
        (fun _ => 3)).2.map Ant.Tour = [[3, 0, 0, 0, 0]]) ∧
    ((InitializeAnts (NewAntColony 1 1 2 (1/2) 100 mainCities id)
        (fun _ => 3)).2.map (fun a => a.Tour.length) = [5]) ∧
    ((InitializeAnts (NewAntColony 1 1 2 (1/2) 100 mainCities id)
        (fun _ => 3)).2.map (fun a => (a.Visited 3, a.Visited 0)) = [(true, false)]) := by
  exact ⟨by decide, by decide, by decide⟩

/-- Claim C4 (refuted): `NewAntColony` applied to a single-city list does
not fail — it returns a fully usable colony: the parameters and the city
list are stored, the pheromone matrix is zero and the distance matrix is
populated.  There is no validation of the city count anywhere in the
constructor. -/
theorem newAntColony_one_city_returns_colony :
    (NewAntColony 10 1 2 (1/2) 100 [⟨0, 0⟩] id).Cities = [⟨0, 0⟩] ∧
    (NewAntColony 10 1 2 (1/2) 100 [⟨0, 0⟩] id).NumAnts = 10 ∧
    (NewAntColony 10 1 2 (1/2) 100 [⟨0, 0⟩] id).Pheromones 0 0 = 0 ∧
    (NewAntColony 10 1 2 (1/2) 100 [⟨0, 0⟩] id).DistanceMatrix 0 0 = 0 := by
  refine ⟨rfl, rfl, rfl, ?_⟩
  simp [NewAntColony, City.Distance]

/-- Claim C4 (amended): colony construction with fewer than 2 cities does
not fail fast; `NewAntColony` performs no validation and returns a normally
constructed colony — parameters stored, city list stored, zero-initialized
pheromone matrix — for any city list, including degenerate ones. -/
theorem newAntColony_no_validation (numAnts : Nat) (alpha beta rho q : Rat)
    (cities : List City) (sq : Rat → Rat) (hdeg : cities.length < 2) :
    (NewAntColony numAnts alpha beta rho q cities sq).NumAnts = numAnts ∧
    (NewAntColony numAnts alpha beta rho q cities sq).Alpha = alpha ∧
    (NewAntColony numAnts alpha beta rho q cities sq).Beta = beta ∧
    (NewAntColony numAnts alpha beta rho q cities sq).Rho = rho ∧
    (NewAntColony numAnts alpha beta rho q cities sq).Q = q ∧
    (NewAntColony numAnts alpha beta rho q cities sq).Cities = cities ∧
    ∀ i j, (NewAntColony numAnts alpha beta rho q cities sq).Pheromones i j = 0 :=
  ⟨rfl, rfl, rfl, rfl, rfl, rfl, fun _ _ => rfl⟩

/-- Witness for `newAntColony_no_validation` at the concrete degenerate
input of a single city. -/
theorem newAntColony_no_validation_witness :
    (NewAntColony 10 1 2 (1/2) 100 [⟨0, 0⟩] id).NumAnts = 10 ∧
    (NewAntColony 10 1 2 (1/2) 100 [⟨0, 0⟩] id).Alpha = 1 ∧
    (NewAntColony 10 1 2 (1/2) 100 [⟨0, 0⟩] id).Beta = 2 ∧
    (NewAntColony 10 1 2 (1/2) 100 [⟨0, 0⟩] id).Rho = 1/2 ∧
    (NewAntColony 10 1 2 (1/2) 100 [⟨0, 0⟩] id).Q = 100 ∧
    (NewAntColony 10 1 2 (1/2) 100 [⟨0, 0⟩] id).Cities = [⟨0, 0⟩] ∧
    ∀ i j, (NewAntColony 10 1 2 (1/2) 100 [⟨0, 0⟩] id).Pheromones i j = 0 :=
  newAntColony_no_validation 10 1 2 (1/2) 100 [⟨0, 0⟩] id (by decide)

/-! ### Division guards (C7, C8) -/

lemma depositTour_short (q tl : Rat) (tour : List Int) (h : tour.length ≤ 1)
    (m : Int → Int → Rat) : depositTour q tl tour m = m := by
  match tour with
  | [] => rfl
  | [x] => rfl
  | x :: y :: r => simp at h

/-- Claim C7 (refuted): with two coincident cities and the valid tour
`[0, 1]` of zero length, the deposit loop of `UpdatePheromones` runs and
evaluates `ac.Q / tourLength` with a zero denominator — nothing guards the
division.  (In Go the quotient is `+Inf`.) -/
theorem updatePheromones_zero_division_occurs :
    UpdateZeroDiv (NewAntColony 1 1 2 (1/2) 100 [⟨0, 0⟩, ⟨0, 0⟩] id)
      [{ Tour := [0, 1], Visited := fun i => i == 0 || i == 1 }] = true := by
  simp [UpdateZeroDiv, NewAntColony, City.Distance, AntColony.TourLength, tourLen]

/-- Claim C7 (amended): the division `ac.Q / tourLength` in
`UpdatePheromones` is not guarded.  The only protection is structural: an
ant whose tour has at most one entry contributes nothing (the deposit loop
body never runs for it, so no division is evaluated), while every ant with
at least two tour entries and zero tour length makes the deposit loop
evaluate `ac.Q / 0`. -/
theorem updatePheromones_division_unguarded :
    (∀ (ac : AntColony) (ant : Ant) (ants : List Ant), ant.Tour.length ≤ 1 →
      UpdatePheromones ac (ant :: ants) = UpdatePheromones ac ants) ∧
    (∀ (ac : AntColony) (ant : Ant), 2 ≤ ant.Tour.length →
      ac.TourLength ant.Tour = 0 → UpdateZeroDiv ac [ant] = true) := by
  constructor
  · intro ac ant ants h
    simp only [UpdatePheromones, depositAnts, depositTour_short _ _ _ h]
  · intro ac ant h1 h2
    simp [UpdateZeroDiv, h1, h2]

/-- Witness for `updatePheromones_division_unguarded` at concrete inputs:
a single-entry tour deposits nothing, and a two-entry zero-length tour over
coincident cities reaches the zero-denominator division. -/
theorem updatePheromones_division_unguarded_witness :
    (UpdatePheromones (NewAntColony 1 1 2 (1/2) 100 [⟨2, 3⟩, ⟨2, 3⟩] id)
        [{ Tour := [0], Visited := fun i => i == 0 }] =
      UpdatePheromones (NewAntColony 1 1 2 (1/2) 100 [⟨2, 3⟩, ⟨2, 3⟩] id) []) ∧
    UpdateZeroDiv (NewAntColony 1 1 2 (1/2) 100 [⟨2, 3⟩, ⟨2, 3⟩] id)
      [{ Tour := [0, 1], Visited := fun i => i == 0 || i == 1 }] = true :=
  ⟨updatePheromones_division_unguarded.1 _ _ [] (by decide),
   updatePheromones_division_unguarded.2 _ _ (by decide)
     (by simp [AntColony.TourLength, tourLen, NewAntColony, City.Distance])⟩

/-- Claim C8 (refuted): with two coincident cities, an ant sitting at city
`0` with city `1` unvisited makes the heuristic loop of `NextCity` evaluate
`1 / ac.DistanceMatrix[currentCity][i]` with a zero denominator — the
division is not guarded.  (In Go the quotient is `+Inf`, and
`math.Pow(0, alpha) * math.Pow(+Inf, beta) = 0 * +Inf = NaN` then pollutes
the weight sum.) -/
theorem nextCity_zero_division_occurs :
    NextCityZeroDiv (NewAntColony 1 1 2 (1/2) 100 [⟨0, 0⟩, ⟨0, 0⟩] id)
      { Tour := [0], Visited := fun i => i == 0 } = true := by
  simp [NextCityZeroDiv, NewAntColony, City.Distance, List.range_succ]

/-- Claim C8 (amended): the heuristic division of `NextCity` is unguarded:
whenever some unvisited city index `i < len(ac.Cities)` lies at distance
exactly `0` from the ant's current city, the first loop of `NextCity`
evaluates `1 / ac.DistanceMatrix[currentCity][i]` with a zero
denominator. -/
theorem nextCity_heuristic_division_unguarded (ac : AntColony) (ant : Ant) (i : Nat)
    (h1 : i < ac.Cities.length)
    (h2 : ant.Visited (Int.ofNat i) = false)
    (h3 : ac.DistanceMatrix (ant.Tour.getLastD 0) (Int.ofNat i) = 0) :
    NextCityZeroDiv ac ant = true := by
  simp only [NextCityZeroDiv, List.any_eq_true]
  refine ⟨i, List.mem_range.mpr h1, ?_⟩
  simp only [Bool.and_eq_true, Bool.not_eq_true', decide_eq_true_eq]
  exact ⟨h2, h3⟩

/-- Witness for `nextCity_heuristic_division_unguarded`: a three-city input
whose second and third cities coincide, with the ant currently at city `1`
and city `2` unvisited. -/
theorem nextCity_heuristic_division_unguarded_witness :
    NextCityZeroDiv (NewAntColony 1 1 2 (1/2) 100 [⟨0, 0⟩, ⟨1, 1⟩, ⟨1, 1⟩] id)
      { Tour := [1], Visited := fun i => i == 1 } = true :=
  nextCity_heuristic_division_unguarded _ _ 2 (by decide) (by decide)
    (by simp [NewAntColony, City.Distance])

/-! ### Zero-weight selection fallback (C3) -/

lemma foldl_guard_zero (w : Nat → Rat) (vis : Nat → Bool) :
    ∀ (l : List Nat) (s : Rat), (∀ i ∈ l, vis i = false → w i = 0) →
      l.foldl (fun s2 i => if vis i then s2 else s2 + w i) s = s := by
  intro l
  induction l with
  | nil => intro s _; rfl
  | cons a l ih =>
    intro s hw
    show List.foldl _ (if vis a then s else s + w a) l = s
    by_cases ha : vis a
    · simp only [ha, if_true]
      exact ih s fun i hi hv => hw i (List.mem_cons_of_mem a hi) hv
    · have hva : vis a = false := by simpa using ha
      have hwa : w a = 0 := hw a (List.mem_cons_self a l) hva
      simp only [hva, Bool.false_eq_true, if_false, hwa, add_zero]
      exact ih s fun i hi hv => hw i (List.mem_cons_of_mem a hi) hv

lemma selectLoop_all_zero (w : Nat → Rat) (vis : Nat → Bool) (roulette : Rat) :
    ∀ (l : List Nat) (cum : Rat), roulette ≤ cum →
      (∀ i ∈ l, vis i = false → w i = 0) →
      (∃ i ∈ l, vis i = false) →
      ∃ i, i ∈ l ∧ vis i = false ∧
        ∀ cum2 : Rat, roulette ≤ cum2 → selectLoop w vis roulette cum2 l = Int.ofNat i := by
  intro l
  induction l with
  | nil =>
    intro cum _ _ hex
    rcases hex with ⟨i, hi, _⟩
    exact absurd hi (List.not_mem_nil i)
  | cons a l ih =>
    intro cum hc hw hex
    by_cases ha : vis a
    · have hex2 : ∃ i ∈ l, vis i = false := by
        rcases hex with ⟨i, hi, hvi⟩
        rcases List.mem_cons.mp hi with rfl | hil
        · rw [hvi] at ha; exact absurd ha (by simp)
        · exact ⟨i, hil, hvi⟩
      obtain ⟨i, hil, hvi, heq⟩ :=
        ih cum hc (fun i hi hv => hw i (List.mem_cons_of_mem a hi) hv) hex2
      refine ⟨i, List.mem_cons_of_mem a hil, hvi, fun cum2 hc2 => ?_⟩
      rw [selectLoop]
      simp only [ha, if_true]
      exact heq cum2 hc2
    · have hva : vis a = false := by simpa using ha
      have hwa : w a = 0 := hw a (List.mem_cons_self a l) hva
      refine ⟨a, List.mem_cons_self a l, hva, fun cum2 hc2 => ?_⟩
      rw [selectLoop]
      simp only [hva, Bool.false_eq_true, if_false, hwa, add_zero, hc2, if_true]

/-- Claim C3 (confirmed): if an ant's tour is non-empty and incomplete and
every unvisited city has desirability weight `0`, then `NextCity` returns a
valid unvisited city index — in fact the same in-range unvisited index for
every possible random draw `r`, so the fallback is deterministic — and never
the out-of-range sentinel `-1`.  (The weight sum is then `0`, the roulette
value `r * 0` is `0`, and the very first unvisited city already satisfies
`cumulativeProbability >= roulette`.) -/
theorem nextCity_zero_weight_fallback (pw : Rat → Rat → Rat) (ac : AntColony)
    (ant : Ant) (hne : ant.Tour ≠ [])
    (hinc : ∃ i, i < ac.Cities.length ∧ ant.Visited (Int.ofNat i) = false)
    (hw : ∀ i, i < ac.Cities.length → ant.Visited (Int.ofNat i) = false →
      weight pw ac (ant.Tour.getLastD 0) (Int.ofNat i) = 0) :
    ∃ i, i < ac.Cities.length ∧ ant.Visited (Int.ofNat i) = false ∧
      ∀ r : Rat, (NextCity pw ac ant r).2 = Int.ofNat i := by
  obtain ⟨i, hil, hvi, heq⟩ :=
    selectLoop_all_zero (fun i => weight pw ac (ant.Tour.getLastD 0) (Int.ofNat i))
      (fun i => ant.Visited (Int.ofNat i)) 0 (List.range ac.Cities.length) 0 le_rfl
      (fun i hi hv => hw i (List.mem_range.mp hi) hv)
      (by rcases hinc with ⟨i, hi, hv⟩; exact ⟨i, List.mem_range.mpr hi, hv⟩)
  refine ⟨i, List.mem_range.mp hil, hvi, fun r => ?_⟩
  have hsum :
      (List.range ac.Cities.length).foldl
        (fun s j => if ant.Visited (Int.ofNat j) then s
          else s + weight pw ac (ant.Tour.getLastD 0) (Int.ofNat j)) 0 = 0 :=
    foldl_guard_zero _ _ _ 0 (fun j hj hv => hw j (List.mem_range.mp hj) hv)
  show selectLoop _ _ _ 0 (List.range ac.Cities.length) = Int.ofNat i
  rw [hsum, mul_zero]
  exact heq 0 le_rfl

/-- Witness for `nextCity_zero_weight_fallback`: a two-city colony with
`math.Pow` modelled as the constantly-zero function (so every weight is
`0`), an ant that has visited only city `0`. -/
theorem nextCity_zero_weight_fallback_witness :
    ∃ i, i < (NewAntColony 1 0 0 0 1 [⟨0, 0⟩, ⟨1, 1⟩] id).Cities.length ∧
      (fun j => j == (0 : Int)) (Int.ofNat i) = false ∧
      ∀ r : Rat,
        (NextCity (fun _ _ => 0) (NewAntColony 1 0 0 0 1 [⟨0, 0⟩, ⟨1, 1⟩] id)
          { Tour := [0], Visited := fun j => j == 0 } r).2 = Int.ofNat i :=
  nextCity_zero_weight_fallback (fun _ _ => 0)
    (NewAntColony 1 0 0 0 1 [⟨0, 0⟩, ⟨1, 1⟩] id)
    { Tour := [0], Visited := fun j => j == 0 } (by decide)
    ⟨1, by decide, by decide⟩
    (fun i _ _ => by simp [weight])

/-! ### Symmetry of the pheromone matrix (C5) -/

lemma addAt_apply (a b : Int) (v : Rat) (m : Int → Int → Rat) (i j : Int) :
    addAt a b v m i j = m i j + if i = a ∧ j = b then v else 0 := by
  unfold addAt
  split_ifs <;> simp

lemma symm_evaporate (n : Nat) (rho : Rat) (m : Int → Int → Rat) (hm : SymmM m) :
    SymmM (evaporate n rho m) := by
  intro i j
  unfold evaporate
  by_cases h : 0 ≤ i ∧ i < (n : Int) ∧ 0 ≤ j ∧ j < (n : Int)
  · have h2 : 0 ≤ j ∧ j < (n : Int) ∧ 0 ≤ i ∧ i < (n : Int) :=
      ⟨h.2.2.1, h.2.2.2, h.1, h.2.1⟩
    rw [if_pos h, if_pos h2, hm i j]
  · have h2 : ¬(0 ≤ j ∧ j < (n : Int) ∧ 0 ≤ i ∧ i < (n : Int)) := fun hc =>
      h ⟨hc.2.2.1, hc.2.2.2, hc.1, hc.2.1⟩
    rw [if_neg h, if_neg h2, hm i j]

lemma symm_addPair (f t : Int) (v : Rat) (m : Int → Int → Rat) (hm : SymmM m) :
    SymmM (addAt t f v (addAt f t v m)) := by
  intro i j
  simp only [addAt_apply]
  rw [hm i j]
  have e1 : (i = t ∧ j = f) ↔ (j = f ∧ i = t) := and_comm
  have e2 : (i = f ∧ j = t) ↔ (j = t ∧ i = f) := and_comm
  rw [if_congr e1 rfl rfl, if_congr e2 rfl rfl]
  ring

lemma symm_depositTour (q tl : Rat) :
    ∀ (tour : List Int) (m : Int → Int → Rat), SymmM m → SymmM (depositTour q tl tour m) := by
  intro tour
  induction tour with
  | nil => intro m hm; exact hm
  | cons f rest ih =>
    intro m hm
    cases rest with
    | nil => exact hm
    | cons t rest2 =>
      show SymmM (depositTour q tl (t :: rest2) (addAt t f (q / tl) (addAt f t (q / tl) m)))
      exact ih _ (symm_addPair f t _ m hm)

lemma symm_depositAnts (ac : AntColony) :
    ∀ (ants : List Ant) (m : Int → Int → Rat), SymmM m → SymmM (depositAnts ac ants m) := by
  intro ants
  induction ants with
  | nil => intro m hm; exact hm
  | cons ant rest ih =>
    intro m hm
    exact ih _ (symm_depositTour _ _ _ m hm)

lemma symm_update (ac : AntColony) (ants : List Ant) (hm : SymmM ac.Pheromones) :
    SymmM (UpdatePheromones ac ants).Pheromones :=
  symm_depositAnts ac ants _ (symm_evaporate _ _ _ hm)

/-- Claim C5 (confirmed): `UpdatePheromones` preserves symmetry of the
pheromone matrix (evaporation scales `[i][j]` and `[j][i]` alike, and every
deposit is added to both `[from][to]` and `[to][from]`), and — since
`NewAntColony` zero-initializes the matrix — the pheromone matrix of a
constructed colony is symmetric after any number of update calls, whatever
ant batches they are given. -/
theorem updatePheromones_preserves_symmetry :
    (∀ (ac : AntColony) (ants : List Ant), SymmM ac.Pheromones →
      SymmM (UpdatePheromones ac ants).Pheromones) ∧
    (∀ (numAnts : Nat) (alpha beta rho q : Rat) (cities : List City) (sq : Rat → Rat)
      (antSeq : Nat → List Ant) (k : Nat),
      SymmM ((iterUpdates (NewAntColony numAnts alpha beta rho q cities sq) antSeq k).Pheromones)) := by
  constructor
  · exact fun ac ants hm => symm_update ac ants hm
  · intro numAnts alpha beta rho q cities sq antSeq k
    induction k with
    | zero => intro i j; rfl
    | succ n ih => exact symm_update _ _ ih

/-- Witness for `updatePheromones_preserves_symmetry` at a concrete colony
(whose freshly constructed pheromone matrix is zero, hence symmetric) and a
concrete ant batch. -/
theorem updatePheromones_preserves_symmetry_witness :
    SymmM ((UpdatePheromones (NewAntColony 2 1 2 (1/2) 100 mainCities id)
      [{ Tour := [0, 1, 2, 3, 4], Visited := fun _ => true }]).Pheromones) :=
  updatePheromones_preserves_symmetry.1 _ _ (fun _ _ => rfl)

/-! ### Non-negativity of the pheromone matrix (C6) -/

lemma tourLen_nonneg (dm : Int → Int → Rat) (hd : ∀ i j, 0 ≤ dm i j) :
    ∀ tour : List Int, 0 ≤ tourLen dm tour := by
  intro tour
  induction tour with
  | nil => simp [tourLen]
  | cons f rest ih =>
    cases rest with
    | nil => simp [tourLen]
    | cons t rest2 =>
      show 0 ≤ dm f t + tourLen dm (t :: rest2)
      exact add_nonneg (hd f t) ih

lemma evaporate_nonneg (n : Nat) (rho : Rat) (m : Int → Int → Rat)
    (h1 : 0 ≤ rho) (h2 : rho ≤ 1) (hm : ∀ i j, 0 ≤ m i j) :
    ∀ i j, 0 ≤ evaporate n rho m i j := by
  intro i j
  unfold evaporate
  split_ifs with h
  · exact mul_nonneg (hm i j) (by linarith)
  · exact hm i j

lemma addAt_nonneg (a b : Int) (v : Rat) (m : Int → Int → Rat)
    (hv : 0 ≤ v) (hm : ∀ i j, 0 ≤ m i j) : ∀ i j, 0 ≤ addAt a b v m i j := by
  intro i j
  unfold addAt
  split_ifs
  · exact add_nonneg (hm i j) hv
  · exact hm i j

lemma depositTour_nonneg (q tl : Rat) (hq : 0 ≤ q / tl) :
    ∀ (tour : List Int) (m : Int → Int → Rat), (∀ i j, 0 ≤ m i j) →
      ∀ i j, 0 ≤ depositTour q tl tour m i j := by
  intro tour
  induction tour with
  | nil => intro m hm; exact hm
  | cons f rest ih =>
    intro m hm
    cases rest with
    | nil => exact hm
    | cons t rest2 =>
      show ∀ i j, 0 ≤ depositTour q tl (t :: rest2) (addAt t f (q / tl) (addAt f t (q / tl) m)) i j
      exact ih _ (addAt_nonneg _ _ _ _ hq (addAt_nonneg _ _ _ _ hq hm))

lemma depositAnts_nonneg (ac : AntColony) (hQ : 0 ≤ ac.Q)
    (hd : ∀ i j, 0 ≤ ac.DistanceMatrix i j) :
    ∀ (ants : List Ant) (m : Int → Int → Rat), (∀ i j, 0 ≤ m i j) →
      ∀ i j, 0 ≤ depositAnts ac ants m i j := by
  intro ants
  induction ants with
  | nil => intro m hm; exact hm
  | cons ant rest ih =>
    intro m hm
    have htl : 0 ≤ ac.TourLength ant.Tour := tourLen_nonneg _ hd ant.Tour
    exact ih _ (depositTour_nonneg _ _ (div_nonneg hQ htl) ant.Tour m hm)

/-- Claim C6 (confirmed): given `0 ≤ rho ≤ 1`, `Q > 0`, a non-negative
distance matrix (as every matrix of Euclidean distances is, second
conjunct) and a non-negative pheromone matrix, every entry of the pheromone
matrix is still non-negative after `UpdatePheromones`: evaporation scales
by the non-negative factor `1 - rho` and every deposit `Q / tourLength` is
non-negative. -/
theorem updatePheromones_nonneg :
    (∀ (ac : AntColony) (ants : List Ant), 0 ≤ ac.Rho → ac.Rho ≤ 1 → 0 < ac.Q →
      (∀ i j, 0 ≤ ac.DistanceMatrix i j) → (∀ i j, 0 ≤ ac.Pheromones i j) →
      ∀ i j, 0 ≤ (UpdatePheromones ac ants).Pheromones i j) ∧
    (∀ (numAnts : Nat) (alpha beta rho q : Rat) (cities : List City) (sq : Rat → Rat),
      (∀ x, 0 ≤ sq x) →
      ∀ i j, 0 ≤ (NewAntColony numAnts alpha beta rho q cities sq).DistanceMatrix i j) := by
  constructor
  · intro ac ants h1 h2 hQ hd hm i j
    exact depositAnts_nonneg ac hQ.le hd ants _
      (evaporate_nonneg _ _ _ h1 h2 hm) i j
  · intro numAnts alpha beta rho q cities sq hsq i j
    exact hsq _

/-- Witness for `updatePheromones_nonneg` at a concrete colony (square
function as the model of `math.Sqrt`, so distances are squared Euclidean
norms and non-negative) and a concrete ant batch. -/
theorem updatePheromones_nonneg_witness :
    ∀ i j, 0 ≤ (UpdatePheromones
      (NewAntColony 2 1 2 (1/2) 100 mainCities (fun x => x * x))
      [{ Tour := [0, 1, 2, 3, 4], Visited := fun _ => true }]).Pheromones i j :=
  updatePheromones_nonneg.1 _ _ (by norm_num [NewAntColony]) (by norm_num [NewAntColony])
    (by norm_num [NewAntColony])
    (updatePheromones_nonneg.2 2 1 2 (1/2) 100 mainCities (fun x => x * x)
      (fun x => mul_self_nonneg x))
    (fun i j => le_refl 0)

/-! ### Open-path symmetry of TourLength (C9) -/

/-- Last element of an integer list, `0` for the empty list (proof-side
helper for the reversal argument). -/
def lastD : List Int → Int
  | [] => 0
  | [a] => a
  | _ :: b :: l => lastD (b :: l)

lemma lastD_append_single : ∀ (l : List Int) (a : Int), lastD (l ++ [a]) = a := by
  intro l
  induction l with
  | nil => intro a; rfl
  | cons c l ih =>
    intro a
    cases l with
    | nil => rfl
    | cons d l2 =>
      have h : lastD ((c :: d :: l2) ++ [a]) = lastD ((d :: l2) ++ [a]) := rfl
      rw [h]
      exact ih a

lemma lastD_reverse (l : List Int) (b : Int) : lastD ((b :: l).reverse) = b := by
  rw [List.reverse_cons]
  exact lastD_append_single _ b

lemma tourLen_concat (dm : Int → Int → Rat) :
    ∀ (l : List Int) (c x : Int),
      tourLen dm (c :: l ++ [x]) = tourLen dm (c :: l) + dm (lastD (c :: l)) x := by
  intro l
  induction l with
  | nil =>
    intro c x
    simp [tourLen, lastD]
  | cons d l2 ih =>
    intro c x
    have h1 : tourLen dm (c :: (d :: l2) ++ [x]) = dm c d + tourLen dm (d :: l2 ++ [x]) := rfl
    rw [h1, ih d x]
    have h2 : tourLen dm (c :: d :: l2) = dm c d + tourLen dm (d :: l2) := rfl
    have h3 : lastD (c :: d :: l2) = lastD (d :: l2) := rfl
    rw [h2, h3]
    ring

lemma tourLen_reverse (dm : Int → Int → Rat) (hs : SymmM dm) :
    ∀ l : List Int, tourLen dm l.reverse = tourLen dm l := by
  intro l
  induction l with
  | nil => rfl
  | cons a l ih =>
    cases l with
    | nil => rfl
    | cons b l2 =>
      rw [List.reverse_cons]
      obtain ⟨c, m, hcm⟩ : ∃ c m, (b :: l2).reverse = c :: m := by
        cases hrev : (b :: l2).reverse with
        | nil => exact absurd hrev (by simp)
        | cons c m => exact ⟨c, m, rfl⟩
      rw [hcm, tourLen_concat dm m c a, ← hcm, ih, lastD_reverse]
      show tourLen dm (b :: l2) + dm b a = dm a b + tourLen dm (b :: l2)
      rw [hs b a]
      ring

lemma newAntColony_dm_symm (numAnts : Nat) (alpha beta rho q : Rat)
    (cities : List City) (sq : Rat → Rat) :
    SymmM (NewAntColony numAnts alpha beta rho q cities sq).DistanceMatrix := by
  intro i j
  show City.Distance sq (cities.getD i.toNat ⟨0, 0⟩) (cities.getD j.toNat ⟨0, 0⟩) =
    City.Distance sq (cities.getD j.toNat ⟨0, 0⟩) (cities.getD i.toNat ⟨0, 0⟩)
  unfold City.Distance
  exact congrArg sq (by ring)

/-- Claim C9 (confirmed): for every constructed colony — whose distance
matrix `DistanceMatrix[i][j] = sqrt((xi-xj)² + (yi-yj)²)` is symmetric
because the squared-difference argument is — and every tour, `TourLength`
of the tour equals `TourLength` of its exact reverse (open-path symmetry:
the same edges are summed in the opposite order). -/
theorem tourLength_reverse_eq (numAnts : Nat) (alpha beta rho q : Rat)
    (cities : List City) (sq : Rat → Rat) (tour : List Int) :
    (NewAntColony numAnts alpha beta rho q cities sq).TourLength tour =
    (NewAntColony numAnts alpha beta rho q cities sq).TourLength tour.reverse := by
  unfold AntColony.TourLength
  exact (tourLen_reverse _ (newAntColony_dm_symm numAnts alpha beta rho q cities sq) tour).symm
